import Mathlib

/-!
Shallow embedding of the CRD version / storage-migration logic
(`pkg/lib/crd/version.go`) and of the gRPC registry reconciler
(`pkg/controller/registry/reconciler/grpc.go`), together with theorems
settling the specification claims about them.
-/

namespace Crd

/-- `V1Beta1Version` from version.go: the deprecated v1beta1 APIVersion tag. -/
def V1Beta1Version : String := "v1beta1"

/-- `V1Version` from version.go: the v1 APIVersion tag. -/
def V1Version : String := "v1"

/-- The key set of the `supportedCRDVersions` map from version.go. -/
def supportedCRDVersions : List String := [V1Beta1Version, V1Version]

/-- One entry of `spec.versions` of a CustomResourceDefinition: a name and a
storage flag.  The two apiextensions schema variants agree on these fields. -/
structure CRDVersion where
  name : String
  storage : Bool
  deriving DecidableEq

/-- The `runtime.Object` values the crd package switches over: a v1
CustomResourceDefinition, a v1beta1 CustomResourceDefinition, or any other
object (the default case of the type switches, which contributes nothing). -/
inductive RuntimeObject where
  | v1CRD (specVersions : List CRDVersion) (statusStoredVersions : List String)
  | v1beta1CRD (specVersions : List CRDVersion) (statusStoredVersions : List String)
  | other
  deriving DecidableEq

/-- The decoded form of a manifest as far as `Version` inspects it: the
group-version-kind version field, plus the remaining document content
(`rest`), which `Version` never reads. -/
structure Unstructured where
  gvkVersion : String
  rest : String
  deriving DecidableEq

/-- Result of the YAML/JSON decode step (`dec.Decode(unst)` in version.go).
The decoder itself is an external collaborator; it is passed as a function. -/
inductive DecodeResult where
  | ok (u : Unstructured)
  | err (e : String)
  deriving DecidableEq

/-- The error cases `Version` can return. -/
inductive VersionError where
  | emptyManifest
  | decodeFailed (e : String)
  | unsupportedVersion (v : String)
  deriving DecidableEq

/-- `Version` from version.go: nil manifest fails; otherwise decode, read the
group-version-kind version, and accept exactly the supported tags. -/
def Version (decode : String → DecodeResult) : Option String → Except VersionError String
  | none => .error .emptyManifest
  | some m =>
    match decode m with
    | .err e => .error (.decodeFailed e)
    | .ok u =>
      if supportedCRDVersions.contains u.gvkVersion then .ok u.gvkVersion
      else .error (.unsupportedVersion u.gvkVersion)

/-- `getStoredVersions` from version.go: the set of names flagged
`storage = true` in the new CRD paired with the set of names in
`status.storedVersions` of the old CRD (sets modelled as lists, membership is
what matters). -/
def getStoredVersions (oldCRD newCRD : RuntimeObject) : List String × List String :=
  let oldStoredVersions :=
    match oldCRD with
    | .v1CRD _ stored => stored
    | .v1beta1CRD _ stored => stored
    | .other => []
  let newStoredVersions :=
    match newCRD with
    | .v1CRD vs _ => (vs.filter (fun v => v.storage)).map (fun v => v.name)
    | .v1beta1CRD vs _ => (vs.filter (fun v => v.storage)).map (fun v => v.name)
    | .other => []
  (newStoredVersions, oldStoredVersions)

/-- `RunStorageMigration` from version.go: iterate over the old stored
versions; if any of them is among the storage-flagged names of the new CRD,
return false, otherwise return true. -/
def RunStorageMigration (oldCRD newCRD : RuntimeObject) : Bool :=
  let p := getStoredVersions oldCRD newCRD
  !(p.2.any (fun name => p.1.contains name))

/-- `GetNewStorageVersion` from version.go: the first spec version flagged
`storage = true`, or the empty string. -/
def GetNewStorageVersion (crd : RuntimeObject) : String :=
  match crd with
  | .v1CRD vs _ =>
    match vs.find? (fun v => v.storage) with
    | some v => v.name
    | none => ""
  | .v1beta1CRD vs _ =>
    match vs.find? (fun v => v.storage) with
    | some v => v.name
    | none => ""
  | .other => ""

/-- The old stored-version set, for stating properties. -/
def storedVersionsOf : RuntimeObject → List String
  | .v1CRD _ stored => stored
  | .v1beta1CRD _ stored => stored
  | .other => []

/-- The storage-flagged version names, for stating properties. -/
def storageVersionsOf : RuntimeObject → List String
  | .v1CRD vs _ => (vs.filter (fun v => v.storage)).map (fun v => v.name)
  | .v1beta1CRD vs _ => (vs.filter (fun v => v.storage)).map (fun v => v.name)
  | .other => []

end Crd

namespace Reconciler

/-- Modelled from the spec: `CatalogSourceLabelKey`, the single fixed label
key identifying which CatalogSource owns a workload/service.  The constant
is declared in a file of the reconciler package outside these sources; only
its fixedness matters, not its value. -/
def CatalogSourceLabelKey : String := "olm.catalogSource"

/-- A container of a pod spec: only the image is read by this code. -/
structure Container where
  image : String
  deriving DecidableEq

/-- A container status: only the image digest (ImageID) is read. -/
structure ContainerStatus where
  imageID : String
  deriving DecidableEq

/-- The status of a pod: its container statuses. -/
structure PodStatus where
  containerStatuses : List ContainerStatus
  deriving DecidableEq

/-- A pod, restricted to the fields this code reads. -/
structure Pod where
  name : String
  labels : List (String × String)
  creationTimestamp : Nat
  containers : List Container
  status : PodStatus
  deriving DecidableEq

/-- A service port. -/
structure ServicePort where
  name : String
  port : Nat
  targetPort : Nat
  deriving DecidableEq

/-- A service, restricted to the fields this code reads. -/
structure Service where
  name : String
  ns : String
  ports : List ServicePort
  selector : List (String × String)
  deriving DecidableEq

/-- `RegistryServiceStatus` written onto the CatalogSource status. -/
structure RegistryServiceStatus where
  createdAt : Nat
  protocol : String
  serviceName : String
  serviceNamespace : String
  port : String
  deriving DecidableEq

/-- A CatalogSource descriptor: identity, declared image, poll interval
(0 means polling disabled), creation timestamp, and the mutable status
record (`none` means never reconciled). -/
structure CatalogSource where
  name : String
  ns : String
  image : String
  pollInterval : Nat
  creationTimestamp : Nat
  status : Option RegistryServiceStatus
  deriving DecidableEq

/-- `grpcCatalogSourceDecorator.Labels`: the canonical label set, one pair
keyed by the fixed label key, valued by the CatalogSource name. -/
def sourceLabels (s : CatalogSource) : List (String × String) :=
  [(CatalogSourceLabelKey, s.name)]

/-- `grpcCatalogSourceDecorator.Selector`: the exact-match selector built
from the same validated set as the canonical labels. -/
def sourceSelector (s : CatalogSource) : List (String × String) :=
  [(CatalogSourceLabelKey, s.name)]

/-- An exact-match label selector matches a label set iff every required
key/value pair is present with the same value. -/
def selectorMatches (sel podLabels : List (String × String)) : Bool :=
  sel.all (fun kv => podLabels.lookup kv.1 == some kv.2)

/-- `grpcCatalogSourceDecorator.Service`: the desired service descriptor,
single port 50051, selector = canonical labels. -/
def sourceService (s : CatalogSource) : Service :=
  { name := s.name
    ns := s.ns
    ports := [{ name := "grpc", port := 50051, targetPort := 50051 }]
    selector := sourceLabels s }

/-- `grpcCatalogSourceDecorator.Pod`.  The underlying `Pod` construction
helper is declared outside these sources; modelled from the spec: the desired
workload descriptor carries one container using the declared image and the
canonical label set, and being freshly constructed (derived, not read from
the cluster) it has an empty status and the zero creation timestamp. -/
def sourcePod (s : CatalogSource) : Pod :=
  { name := s.name
    labels := sourceLabels s
    creationTimestamp := 0
    containers := [{ image := s.image }]
    status := { containerStatuses := [] } }

/-- Go map assignment `m[k] = v` on a label map: replace the value under an
existing key, otherwise add the binding. -/
def mapSet (m : List (String × String)) (k v : String) : List (String × String) :=
  if (m.lookup k).isSome then m.map (fun kv => if kv.1 = k then (k, v) else kv)
  else m ++ [(k, v)]

/-- The probe pod built by `getPodDigest`: the desired pod with the value
under the canonical label key overwritten by the empty string
(`p.Labels[CatalogSourceLabelKey] = ""`). -/
def probePod (s : CatalogSource) : Pod :=
  let p := sourcePod s
  { p with labels := mapSet p.labels CatalogSourceLabelKey "" }

/-- Outcome of a service lookup through the lister cache: found, a not-found
error, or any other read error. -/
inductive ServiceLookup where
  | found (svc : Service)
  | errNotFound
  | errOther
  deriving DecidableEq

/-- The read-through cache (lister) collaborator: service lookup by
namespace and name, pod list by namespace and label selector. -/
structure Lister where
  getService : String → String → ServiceLookup
  listPods : String → List (String × String) → Except Unit (List Pod)

/-- The object-store client collaborator: each mutating call either succeeds
or fails. -/
structure OpClient where
  createPod : String → Pod → Except Unit Pod
  deletePod : String → String → Except Unit Unit
  createService : Service → Except Unit Service
  deleteService : String → String → Except Unit Unit

/-- A create or delete call issued against the object store. -/
inductive Action where
  | createPod (ns : String) (p : Pod)
  | deletePod (ns : String) (name : String)
  | createService (svc : Service)
  | deleteService (ns : String) (name : String)
  deriving DecidableEq

/-- The `GrpcRegistryReconciler` together with its environment for one
invocation: the lister and object-store collaborators, the current clock
reading (`now`, used both by the `nowFunc` and by the gate checks), and the
scheduler-dependent content of the rendezvous channel at the moment the
non-blocking read happens, provided a probe was started this call
(`raceDelivered`). -/
structure GrpcRegistryReconciler where
  lister : Lister
  opclient : OpClient
  now : Nat
  raceDelivered : Option String

/-- `currentService`: look the desired service up in the cache; any error
(not-found included) degrades to `none`. -/
def currentService (c : GrpcRegistryReconciler) (s : CatalogSource) : Option Service :=
  match c.lister.getService s.ns (sourceService s).name with
  | .found svc => some svc
  | .errNotFound => none
  | .errOther => none

/-- `currentPods`: list cached pods matching the selector; a read error
degrades to the empty list. -/
def currentPods (c : GrpcRegistryReconciler) (s : CatalogSource) : List Pod :=
  match c.lister.listPods s.ns (sourceSelector s) with
  | .error _ => []
  | .ok pods => pods

/-- The filter loop of `currentPodsWithCorrectImage`: keep the pods whose
first container image equals the declared image.  `none` models the
index-out-of-range panic of `p.Spec.Containers[0]` on a pod with no
containers. -/
def filterCorrectImage (image : String) : List Pod → Option (List Pod)
  | [] => some []
  | p :: ps =>
    match p.containers with
    | [] => none
    | cont :: _ =>
      match filterCorrectImage image ps with
      | none => none
      | some rest => some (if cont.image = image then p :: rest else rest)

/-- `currentPodsWithCorrectImage`: list cached pods by the canonical labels
(a read error degrades to the empty list, returned before the filter loop
runs), then filter by first-container image. -/
def currentPodsWithCorrectImage (c : GrpcRegistryReconciler) (s : CatalogSource) :
    Option (List Pod) :=
  match c.lister.listPods s.ns (sourceLabels s) with
  | .error _ => some []
  | .ok pods => filterCorrectImage s.image pods

/-- Result of `updateRegistryPodByDigest`: the boolean it returns (`none`
models the index-out-of-range panic on the desired pod having no container
statuses) and whether the asynchronous probe task was spawned. -/
structure RefreshResult where
  result : Option Bool
  probeStarted : Bool
  deriving DecidableEq

/-- `updateRegistryPodByDigest`: a fresh one-slot channel and a local
`lastCheckedTimestamp` initialized to the zero time are created each call;
a zero poll interval disables the feature; the probe is spawned when the
current time is after `lastCheckedTimestamp + interval` and after the
CatalogSource creation timestamp plus the interval; the channel is then read
without blocking.  A digest can only be on the channel if the probe was
spawned this call, which `raceDelivered` models. -/
def updateRegistryPodByDigest (s : CatalogSource) (now : Nat)
    (raceDelivered : Option String) : RefreshResult :=
  let lastCheckedTimestamp : Nat := 0
  let interval := s.pollInterval
  if interval = 0 then { result := some false, probeStarted := false }
  else
    let gate := decide (lastCheckedTimestamp + interval < now) &&
      decide (s.creationTimestamp + interval < now)
    let delivered := if gate then raceDelivered else none
    match delivered with
    | some newDigest =>
      match (sourcePod s).status.containerStatuses with
      | [] => { result := none, probeStarted := gate }
      | cs0 :: _ => { result := some (!(newDigest == cs0.imageID)), probeStarted := gate }
    | none => { result := some false, probeStarted := gate }

/-- The delete loop of `ensurePod`: delete the given pods in order, stopping
at the first failure; the issued delete calls are logged. -/
def deletePods (c : GrpcRegistryReconciler) (ns : String) :
    List Pod → Except Unit Unit × List Action
  | [] => (.ok (), [])
  | p :: ps =>
    match c.opclient.deletePod ns p.name with
    | .error e => (.error e, [.deletePod ns p.name])
    | .ok _ =>
      let r := deletePods c ns ps
      (r.1, .deletePod ns p.name :: r.2)

/-- `ensurePod`: if matching pods exist and no overwrite is wanted, nothing
happens; otherwise every existing matching pod is deleted and the desired
pod is created.  (The Go code enters the delete loop only when matching pods
exist; deleting an empty list issues no calls, so that guard is dropped.) -/
def ensurePod (c : GrpcRegistryReconciler) (s : CatalogSource) (overwrite : Bool) :
    Except Unit Unit × List Action :=
  let pods := currentPods c s
  if pods.length > 0 && !overwrite then (.ok (), [])
  else
    let del := deletePods c s.ns pods
    match del.1 with
    | .error e => (.error e, del.2)
    | .ok _ =>
      match c.opclient.createPod s.ns (sourcePod s) with
      | .ok _ => (.ok (), del.2 ++ [.createPod s.ns (sourcePod s)])
      | .error e => (.error e, del.2 ++ [.createPod s.ns (sourcePod s)])

/-- `ensureService`: if the service exists in cache and no overwrite is
wanted, nothing happens; otherwise an existing service is deleted and the
desired service is created. -/
def ensureService (c : GrpcRegistryReconciler) (s : CatalogSource) (overwrite : Bool) :
    Except Unit Unit × List Action :=
  let svc := sourceService s
  match currentService c s with
  | some _ =>
    if !overwrite then (.ok (), [])
    else
      match c.opclient.deleteService svc.ns svc.name with
      | .error e => (.error e, [.deleteService svc.ns svc.name])
      | .ok _ =>
        match c.opclient.createService svc with
        | .ok _ => (.ok (), [.deleteService svc.ns svc.name, .createService svc])
        | .error e => (.error e, [.deleteService svc.ns svc.name, .createService svc])
  | none =>
    match c.opclient.createService svc with
    | .ok _ => (.ok (), [.createService svc])
    | .error e => (.error e, [.createService svc])

/-- What one `EnsureRegistryServer` invocation produces: the returned error
or success, the (possibly status-mutated) CatalogSource, the create/delete
calls issued by the reconcile itself, and whether a probe task was spawned. -/
structure EnsureResult where
  result : Except Unit Unit
  source : CatalogSource
  actions : List Action
  probeStarted : Bool

/-- `EnsureRegistryServer`.  The whole invocation returns `none` when a
panic is reached (an out-of-range index in `currentPodsWithCorrectImage` or
in the digest branch of `updateRegistryPodByDigest`).  The short-circuit of
`overwrite || len(...) == 0 || c.updateRegistryPodByDigest(source)` is
spelled out: the later operands are evaluated only when the earlier ones do
not already decide the disjunction. -/
def EnsureRegistryServer (c : GrpcRegistryReconciler) (cs : CatalogSource) :
    Option EnsureResult :=
  let overwrite := cs.status.isNone
  let step : Option (Bool × Bool) :=
    if overwrite then some (true, false)
    else
      match currentPodsWithCorrectImage c cs with
      | none => none
      | some pods =>
        if pods.length = 0 then some (true, false)
        else
          let r := updateRegistryPodByDigest cs c.now c.raceDelivered
          match r.result with
          | none => none
          | some b => some (b, r.probeStarted)
  match step with
  | none => none
  | some (overwritePod, probeStarted) =>
    let ep := ensurePod c cs overwritePod
    match ep.1 with
    | .error e => some { result := .error e, source := cs, actions := ep.2, probeStarted }
    | .ok _ =>
      let es := ensureService c cs overwrite
      match es.1 with
      | .error e =>
        some { result := .error e, source := cs, actions := ep.2 ++ es.2, probeStarted }
      | .ok _ =>
        let newStatus : RegistryServiceStatus :=
          { createdAt := c.now
            protocol := "grpc"
            serviceName := (sourceService cs).name
            serviceNamespace := cs.ns
            port := toString ((sourceService cs).ports.headD
              { name := "", port := 0, targetPort := 0 }).port }
        let cs' := if overwritePod then { cs with status := some newStatus } else cs
        some { result := .ok (), source := cs', actions := ep.2 ++ es.2, probeStarted }

/-- `CheckRegistryServer`: healthy iff at least one cached pod carries the
correct image and the service is in cache; the error component is always
nil.  `none` models the panic of `currentPodsWithCorrectImage`. -/
def CheckRegistryServer (c : GrpcRegistryReconciler) (cs : CatalogSource) :
    Option (Bool × Option Unit) :=
  match currentPodsWithCorrectImage c cs with
  | none => none
  | some pods =>
    if pods.length < 1 || (currentService c cs).isNone then some (false, none)
    else some (true, none)

/-- A lister whose every lookup fails with a non-not-found read error. -/
def failingLister : Lister :=
  { getService := fun _ _ => .errOther
    listPods := fun _ _ => .error () }

/-- A lister over an empty cache: service lookups miss, pod lists are empty. -/
def emptyLister : Lister :=
  { getService := fun _ _ => .errNotFound
    listPods := fun _ _ => .ok [] }

/-- An object-store client whose every call succeeds. -/
def allOk : OpClient :=
  { createPod := fun _ p => .ok p
    deletePod := fun _ _ => .ok ()
    createService := fun svc => .ok svc
    deleteService := fun _ _ => .ok () }

/-- A never-reconciled CatalogSource (status absent), used as a witness. -/
def csFirst : CatalogSource :=
  { name := "a", ns := "ns", image := "img", pollInterval := 0,
    creationTimestamp := 0, status := none }

/-- A reconciler over an empty cache with an all-succeeding client. -/
def cFirst : GrpcRegistryReconciler :=
  { lister := emptyLister, opclient := allOk, now := 5, raceDelivered := none }

/-- The status record `EnsureRegistryServer cFirst csFirst` writes. -/
def stFirst : RegistryServiceStatus :=
  { createdAt := 5, protocol := "grpc", serviceName := "a",
    serviceNamespace := "ns", port := "50051" }

/-- The result `EnsureRegistryServer cFirst csFirst` computes to. -/
def rFirst : EnsureResult :=
  { result := .ok ()
    source := { csFirst with status := some stFirst }
    actions := [.createPod "ns" (sourcePod csFirst), .createService (sourceService csFirst)]
    probeStarted := false }

/-- A cached pod carrying the declared image of `csSteady`. -/
def podGood : Pod :=
  { name := "p", labels := [(CatalogSourceLabelKey, "a")], creationTimestamp := 0,
    containers := [{ image := "img" }],
    status := { containerStatuses := [{ imageID := "sha" }] } }

/-- An already-reconciled CatalogSource (status present, polling disabled). -/
def csSteady : CatalogSource :=
  { name := "a", ns := "ns", image := "img", pollInterval := 0,
    creationTimestamp := 0, status := some
      { createdAt := 1, protocol := "grpc", serviceName := "a",
        serviceNamespace := "ns", port := "50051" } }

/-- A lister serving `podGood` and the desired service of `csSteady`. -/
def steadyLister : Lister :=
  { getService := fun _ _ => .found (sourceService csSteady)
    listPods := fun _ _ => .ok [podGood] }

/-- A reconciler in the converged state for `csSteady`. -/
def cSteady : GrpcRegistryReconciler :=
  { lister := steadyLister, opclient := allOk, now := 5, raceDelivered := none }

/-- An already-reconciled CatalogSource with a 20-unit poll interval,
created at time 0. -/
def csPoll : CatalogSource :=
  { name := "a", ns := "ns", image := "img", pollInterval := 20,
    creationTimestamp := 0, status := some stFirst }

/-- A serving pod for `csPoll` created at time 90, freshly deployed. -/
def podFresh : Pod :=
  { name := "p", labels := [(CatalogSourceLabelKey, "a")], creationTimestamp := 90,
    containers := [{ image := "img" }],
    status := { containerStatuses := [{ imageID := "sha" }] } }

/-- A lister serving `podFresh` and the desired service of `csPoll`. -/
def freshLister : Lister :=
  { getService := fun _ _ => .found (sourceService csPoll)
    listPods := fun _ _ => .ok [podFresh] }

/-- A reconciler observing `podFresh` at time 100. -/
def cFresh : GrpcRegistryReconciler :=
  { lister := freshLister, opclient := allOk, now := 100, raceDelivered := none }

end Reconciler

namespace Crd

theorem getStoredVersions_eq (o n : RuntimeObject) :
    getStoredVersions o n = (storageVersionsOf n, storedVersionsOf o) := by
  cases o <;> cases n <;> rfl

/-- Claim C1: `RunStorageMigration` returns false exactly when some name in
the old stored-version set also appears among the storage-flagged names of
the new spec versions, and in particular returns true whenever the old
stored-version set is empty. -/
theorem RunStorageMigration_correct (o n : RuntimeObject) :
    (RunStorageMigration o n = false ↔
      ∃ v, v ∈ storedVersionsOf o ∧ v ∈ storageVersionsOf n) ∧
    (storedVersionsOf o = [] → RunStorageMigration o n = true) := by
  have hmain : RunStorageMigration o n = false ↔
      ∃ v, v ∈ storedVersionsOf o ∧ v ∈ storageVersionsOf n := by
    unfold RunStorageMigration
    rw [getStoredVersions_eq]
    simp [List.any_eq_true]
  refine ⟨hmain, fun hempty => ?_⟩
  rcases hb : RunStorageMigration o n with _ | _
  · rcases hmain.mp hb with ⟨v, hv, _⟩
    rw [hempty] at hv
    cases hv
  · rfl

/-- Witness for C1 at concrete inputs. -/
theorem RunStorageMigration_correct_w :
    storedVersionsOf (.v1CRD [] []) = [] ∧
    RunStorageMigration (.v1CRD [] []) (.v1CRD [⟨"v1", true⟩] []) = true :=
  ⟨rfl, (RunStorageMigration_correct (.v1CRD [] []) (.v1CRD [⟨"v1", true⟩] [])).2 rfl⟩

theorem contains_supported_iff (v : String) :
    supportedCRDVersions.contains v = true ↔ (v = V1Version ∨ v = V1Beta1Version) := by
  simp [supportedCRDVersions, V1Version, V1Beta1Version, or_comm]

/-- Claim C6: `Version` fails on an absent manifest; on a manifest that
decodes it returns the group-version-kind version exactly when that version
is "v1" or "v1beta1" and otherwise fails with an unsupported-version error;
and the result depends on nothing in the document but that version field. -/
theorem Version_correct (decode : String → DecodeResult) (m : String) (u : Unstructured)
    (h : decode m = .ok u) :
    Version decode none = .error .emptyManifest ∧
    Version decode (some m) =
      (if u.gvkVersion = V1Version ∨ u.gvkVersion = V1Beta1Version
       then .ok u.gvkVersion
       else .error (.unsupportedVersion u.gvkVersion)) ∧
    (∀ rest, Version (fun _ => .ok ⟨u.gvkVersion, rest⟩) (some m) = Version decode (some m)) := by
  refine ⟨rfl, ?_, ?_⟩
  · by_cases hv : u.gvkVersion = V1Version ∨ u.gvkVersion = V1Beta1Version
    · rw [if_pos hv]
      simp only [Version, h]
      rw [if_pos ((contains_supported_iff u.gvkVersion).mpr hv)]
    · rw [if_neg hv]
      simp only [Version, h]
      rw [if_neg (fun hc => hv ((contains_supported_iff u.gvkVersion).mp hc))]
  · intro rest
    simp only [Version, h]

/-- Witness for C6 at concrete inputs. -/
theorem Version_correct_w :
    Version (fun _ => DecodeResult.ok ⟨"v1", "rest"⟩) (some "doc") = Except.ok "v1" ∧
    Version (fun _ => DecodeResult.ok ⟨"v1", "rest"⟩) none = Except.error .emptyManifest := by
  have h := Version_correct (fun _ => DecodeResult.ok ⟨"v1", "rest"⟩) "doc" ⟨"v1", "rest"⟩ rfl
  refine ⟨?_, h.1⟩
  rw [h.2.1]
  simp [V1Version]

end Crd

namespace Reconciler

theorem sourceSelector_eq_labels (s : CatalogSource) :
    sourceSelector s = sourceLabels s := rfl

theorem deletePods_ok_actions (c : GrpcRegistryReconciler) (ns : String) (ps : List Pod)
    (h : (deletePods c ns ps).1 = .ok ()) :
    (deletePods c ns ps).2 = ps.map (fun p => Action.deletePod ns p.name) := by
  induction ps with
  | nil => rfl
  | cons p ps ih =>
    unfold deletePods at h ⊢
    cases hd : c.opclient.deletePod ns p.name with
    | error e => simp [hd] at h
    | ok v =>
      simp only [hd] at h ⊢
      simp only [List.map_cons]
      rw [ih h]

theorem ensurePod_ok_actions (c : GrpcRegistryReconciler) (s : CatalogSource)
    (h : (ensurePod c s true).1 = .ok ()) :
    (ensurePod c s true).2 =
      (currentPods c s).map (fun p => Action.deletePod s.ns p.name)
        ++ [Action.createPod s.ns (sourcePod s)] := by
  unfold ensurePod at h ⊢
  simp only [Bool.not_true, Bool.and_false, Bool.false_eq_true, if_false] at h ⊢
  cases hd : (deletePods c s.ns (currentPods c s)).1 with
  | error e => simp [hd] at h
  | ok v =>
    simp only [hd] at h ⊢
    cases hc : c.opclient.createPod s.ns (sourcePod s) with
    | error e => simp [hc] at h
    | ok p =>
      simp only [hc]
      rw [deletePods_ok_actions c s.ns (currentPods c s) hd]

theorem ensurePod_noop (c : GrpcRegistryReconciler) (s : CatalogSource)
    (h : currentPods c s ≠ []) :
    ensurePod c s false = (.ok (), []) := by
  unfold ensurePod
  have hl : (currentPods c s).length > 0 := List.length_pos.mpr h
  simp [hl]

theorem ensureService_ok_actions (c : GrpcRegistryReconciler) (s : CatalogSource)
    (h : (ensureService c s true).1 = .ok ()) :
    (ensureService c s true).2 =
      (match currentService c s with
       | some _ => [Action.deleteService (sourceService s).ns (sourceService s).name]
       | none => []) ++ [Action.createService (sourceService s)] := by
  unfold ensureService at h ⊢
  cases hcur : currentService c s with
  | some svc =>
    simp only [hcur, Bool.not_true, Bool.false_eq_true, if_false] at h ⊢
    cases hd : c.opclient.deleteService (sourceService s).ns (sourceService s).name with
    | error e => simp [hd] at h
    | ok v =>
      simp only [hd] at h ⊢
      cases hc : c.opclient.createService (sourceService s) with
      | error e => simp [hc] at h
      | ok v2 => simp [hc]
  | none =>
    simp only [hcur] at h ⊢
    cases hc : c.opclient.createService (sourceService s) with
    | error e => simp [hc] at h
    | ok v2 => simp [hc]

theorem ensureService_noop (c : GrpcRegistryReconciler) (s : CatalogSource)
    (h : (currentService c s).isSome) :
    ensureService c s false = (.ok (), []) := by
  unfold ensureService
  cases hcur : currentService c s with
  | some svc => rfl
  | none => rw [hcur] at h; simp at h

/-- Claim C2: when the status record is absent, a successful
`EnsureRegistryServer` call deletes every cached pod matching the selector,
creates the desired pod, deletes the cached service when one exists, and
creates the desired service — a create is issued for both objects no matter
what already exists. -/
theorem EnsureRegistryServer_first_reconcile (c : GrpcRegistryReconciler)
    (cs : CatalogSource) (r : EnsureResult)
    (hstat : cs.status = none)
    (hrun : EnsureRegistryServer c cs = some r)
    (hok : r.result = .ok ()) :
    r.actions =
      (currentPods c cs).map (fun p => Action.deletePod cs.ns p.name)
        ++ [Action.createPod cs.ns (sourcePod cs)]
        ++ ((match currentService c cs with
             | some _ => [Action.deleteService (sourceService cs).ns (sourceService cs).name]
             | none => [])
          ++ [Action.createService (sourceService cs)]) := by
  unfold EnsureRegistryServer at hrun
  rw [hstat] at hrun
  simp only [Option.isNone_none, if_true] at hrun
  cases hp : (ensurePod c cs true).1 with
  | error e =>
    simp only [hp, Option.some.injEq] at hrun
    subst hrun
    simp at hok
  | ok v =>
    simp only [hp] at hrun
    cases hs : (ensureService c cs true).1 with
    | error e =>
      simp only [hs, Option.some.injEq] at hrun
      subst hrun
      simp at hok
    | ok v2 =>
      simp only [hs, Option.some.injEq] at hrun
      subst hrun
      show (ensurePod c cs true).2 ++ (ensureService c cs true).2 = _
      rw [ensurePod_ok_actions c cs hp, ensureService_ok_actions c cs hs]

/-- Witness for C2 at a concrete input: empty cache, all calls succeed. -/
theorem EnsureRegistryServer_first_reconcile_w :
    csFirst.status = none ∧
    rFirst.actions = [Action.createPod "ns" (sourcePod csFirst),
      Action.createService (sourceService csFirst)] := by
  refine ⟨rfl, ?_⟩
  have hrun : EnsureRegistryServer cFirst csFirst = some rFirst := by rfl
  have h := EnsureRegistryServer_first_reconcile cFirst csFirst rFirst rfl hrun rfl
  rw [h]
  rfl

theorem filterCorrectImage_some (image : String) (pods : List Pod)
    (hc : ∀ p ∈ pods, p.containers ≠ []) :
    ∃ l, filterCorrectImage image pods = some l ∧
      (l ≠ [] ↔ ∃ p ∈ pods, ∃ cont, p.containers.head? = some cont ∧ cont.image = image) := by
  induction pods with
  | nil => exact ⟨[], rfl, by simp⟩
  | cons p ps ih =>
    obtain ⟨l, hl, hiff⟩ := ih (fun q hq => hc q (List.mem_cons_of_mem _ hq))
    cases hp : p.containers with
    | nil => exact absurd hp (hc p (List.mem_cons_self _ _))
    | cons cont cts =>
      by_cases him : cont.image = image
      · refine ⟨p :: l, ?_, ?_⟩
        · unfold filterCorrectImage
          rw [hp, hl]
          simp [him]
        · constructor
          · intro _
            refine ⟨p, List.mem_cons_self _ _, cont, ?_, him⟩
            rw [hp]
            rfl
          · intro _
            simp
      · refine ⟨l, ?_, ?_⟩
        · unfold filterCorrectImage
          rw [hp, hl]
          simp [him]
        · rw [hiff]
          constructor
          · rintro ⟨q, hq, cont2, hh, hi⟩
            exact ⟨q, List.mem_cons_of_mem _ hq, cont2, hh, hi⟩
          · rintro ⟨q, hq, cont2, hh, hi⟩
            cases List.mem_cons.mp hq with
            | inl heq =>
              subst heq
              rw [hp] at hh
              simp only [List.head?_cons, Option.some.injEq] at hh
              exact absurd (hh ▸ hi) him
            | inr hmem => exact ⟨q, hmem, cont2, hh, hi⟩

/-- Claim C3: with the status record present, at least one cached pod whose
first container image equals the declared image, the service in cache, and
the freshness check returning false, `EnsureRegistryServer` issues zero
create and zero delete calls, succeeds, and returns the CatalogSource
descriptor unchanged. -/
theorem EnsureRegistryServer_fixed_point (c : GrpcRegistryReconciler)
    (cs : CatalogSource) (pods : List Pod)
    (hstat : cs.status.isSome)
    (hlist : c.lister.listPods cs.ns (sourceLabels cs) = .ok pods)
    (hcont : ∀ p ∈ pods, p.containers ≠ [])
    (hmatch : ∃ p ∈ pods, ∃ cont, p.containers.head? = some cont ∧ cont.image = cs.image)
    (hsvc : (currentService c cs).isSome)
    (hrefresh : (updateRegistryPodByDigest cs c.now c.raceDelivered).result = some false) :
    EnsureRegistryServer c cs =
      some { result := .ok (), source := cs, actions := [],
             probeStarted := (updateRegistryPodByDigest cs c.now c.raceDelivered).probeStarted } := by
  obtain ⟨l, hl, hiff⟩ := filterCorrectImage_some cs.image pods hcont
  have hcpwci : currentPodsWithCorrectImage c cs = some l := by
    unfold currentPodsWithCorrectImage
    rw [hlist]
    exact hl
  have hlne : l ≠ [] := hiff.mpr hmatch
  have hcp : currentPods c cs = pods := by
    unfold currentPods
    rw [sourceSelector_eq_labels, hlist]
  have hpodsne : pods ≠ [] := by
    rcases hmatch with ⟨p, hp, _⟩
    intro hnil
    rw [hnil] at hp
    cases hp
  have hov : cs.status.isNone = false := by
    cases hst : cs.status with
    | none => rw [hst] at hstat; simp at hstat
    | some v => rfl
  have hep : ensurePod c cs false = (.ok (), []) :=
    ensurePod_noop c cs (by rw [hcp]; exact hpodsne)
  have hes : ensureService c cs false = (.ok (), []) :=
    ensureService_noop c cs hsvc
  unfold EnsureRegistryServer
  simp only [hov, Bool.false_eq_true, if_false, hcpwci]
  rw [if_neg (fun h0 => hlne (List.length_eq_zero.mp h0))]
  simp only [hrefresh, hep, hes]
  rfl

/-- Witness for C3 at a concrete input: converged cache, polling disabled. -/
theorem EnsureRegistryServer_fixed_point_w :
    EnsureRegistryServer cSteady csSteady =
      some { result := .ok (), source := csSteady, actions := [], probeStarted := false } := by
  have h := EnsureRegistryServer_fixed_point cSteady csSteady [podGood] rfl rfl
    (by intro p hp; simp only [List.mem_singleton] at hp; subst hp; simp [podGood])
    ⟨podGood, by simp, ⟨"img"⟩, rfl, rfl⟩ rfl rfl
  exact h

/-- Claim C4 counterexample: at time 100, with poll interval 20, the only
serving pod in cache was created at time 90 — the elapsed time since its
creation does not exceed the interval — yet the probe is started. -/
theorem updateRegistryPodByDigest_gate_cex :
    currentPods cFresh csPoll = [podFresh] ∧
    (updateRegistryPodByDigest csPoll 100 none).probeStarted = true ∧
    ¬ podFresh.creationTimestamp + csPoll.pollInterval < 100 := by
  refine ⟨rfl, rfl, by decide⟩

/-- Claim C4 amended: with a nonzero poll interval, the probe is started iff
the current time is after the local last-checked timestamp — always the zero
time, so no cross-call rate limiting occurs — plus the interval, and after
the creation timestamp of the CatalogSource itself (not of the serving pod)
plus the interval. -/
theorem updateRegistryPodByDigest_gate_char (s : CatalogSource) (now : Nat)
    (race : Option String) :
    (updateRegistryPodByDigest s now race).probeStarted =
      (decide (s.pollInterval ≠ 0) &&
        (decide (0 + s.pollInterval < now) &&
          decide (s.creationTimestamp + s.pollInterval < now))) := by
  by_cases h0 : s.pollInterval = 0
  · simp [updateRegistryPodByDigest, h0]
  · have hne : decide (s.pollInterval ≠ 0) = true := by simp [h0]
    simp only [updateRegistryPodByDigest, if_neg h0, hne, Bool.true_and]
    cases hg : (decide (0 + s.pollInterval < now) &&
        decide (s.creationTimestamp + s.pollInterval < now)) with
    | false =>
      simp only [hg, Bool.false_eq_true, if_false]
    | true =>
      simp only [hg, if_true]
      cases race with
      | none => rfl
      | some d => rfl

/-- Claim C5: the defined branches behave as described — poll interval zero
gives false and an empty channel gives false — but when a digest has been
delivered the code indexes the first container status of the freshly
constructed desired pod, which has none: the delivered-digest branch is the
out-of-range panic, not a comparison against the serving instance. -/
theorem updateRegistryPodByDigest_digest_oob :
    (sourcePod csPoll).status.containerStatuses = [] ∧
    (updateRegistryPodByDigest csPoll 100 (some "sha256:new")).result = none ∧
    (updateRegistryPodByDigest { csPoll with pollInterval := 0 } 100
      (some "sha256:new")).result = some false ∧
    (updateRegistryPodByDigest csPoll 100 none).result = some false :=
  ⟨rfl, rfl, rfl, rfl⟩

/-- Claim C7: `CheckRegistryServer` returns no error, and is healthy exactly
when some cached pod matching the canonical label has its first container
image equal to the declared image and the backing service is in cache. -/
theorem CheckRegistryServer_spec (c : GrpcRegistryReconciler) (cs : CatalogSource)
    (pods : List Pod)
    (hlist : c.lister.listPods cs.ns (sourceLabels cs) = .ok pods)
    (hcont : ∀ p ∈ pods, p.containers ≠ []) :
    ∃ healthy, CheckRegistryServer c cs = some (healthy, none) ∧
      (healthy = true ↔
        (∃ p ∈ pods, ∃ cont, p.containers.head? = some cont ∧ cont.image = cs.image) ∧
        (currentService c cs).isSome) := by
  obtain ⟨l, hl, hiff⟩ := filterCorrectImage_some cs.image pods hcont
  have hcpwci : currentPodsWithCorrectImage c cs = some l := by
    unfold currentPodsWithCorrectImage
    rw [hlist]
    exact hl
  unfold CheckRegistryServer
  rw [hcpwci]
  by_cases hle : l = []
  · subst hle
    refine ⟨false, by simp, ?_⟩
    constructor
    · intro hf
      cases hf
    · rintro ⟨hex, _⟩
      exact absurd rfl (hiff.mpr hex)
  · cases hsv : currentService c cs with
    | some svc =>
      have hlen : ¬ l.length < 1 := by
        have := List.length_pos.mpr hle
        omega
      refine ⟨true, ?_, ?_⟩
      · simp [hlen]
      · exact ⟨fun _ => ⟨hiff.mp hle, rfl⟩, fun _ => rfl⟩
    | none =>
      refine ⟨false, by simp, ?_⟩
      constructor
      · intro hf
        cases hf
      · rintro ⟨_, hsome⟩
        simp at hsome

/-- Witness for C7 at a concrete input: converged cache, healthy. -/
theorem CheckRegistryServer_spec_w :
    CheckRegistryServer cSteady csSteady = some (true, none) := by
  obtain ⟨healthy, heq, hiff⟩ := CheckRegistryServer_spec cSteady csSteady [podGood] rfl
    (by intro p hp; simp only [List.mem_singleton] at hp; subst hp; simp [podGood])
  have hh : healthy = true := hiff.mpr ⟨⟨podGood, by simp, ⟨"img"⟩, rfl, rfl⟩, rfl⟩
  rw [hh] at heq
  exact heq

/-- Claim C8: every cache lookup degrades a read error to absence (nil
service, empty pod list, no surfaced error), and `EnsureRegistryServer` and
`CheckRegistryServer` behave identically over a failing cache and over an
empty cache. -/
theorem lister_error_as_absence (op : OpClient) (now : Nat) (race : Option String)
    (cs : CatalogSource) :
    currentService ⟨failingLister, op, now, race⟩ cs = none ∧
    currentPods ⟨failingLister, op, now, race⟩ cs = [] ∧
    currentPodsWithCorrectImage ⟨failingLister, op, now, race⟩ cs = some [] ∧
    EnsureRegistryServer ⟨failingLister, op, now, race⟩ cs =
      EnsureRegistryServer ⟨emptyLister, op, now, race⟩ cs ∧
    CheckRegistryServer ⟨failingLister, op, now, race⟩ cs =
      CheckRegistryServer ⟨emptyLister, op, now, race⟩ cs := by
  refine ⟨rfl, rfl, rfl, rfl, rfl⟩

/-- Claim C9: the probe pod uses the identical image reference as the
desired workload and carries the empty string under the canonical label key,
so for a CatalogSource with a non-empty name its label set never satisfies
the exact-match selector used by the service and by the pod lookups. -/
theorem probePod_never_selected (s : CatalogSource) (h : s.name ≠ "") :
    (probePod s).containers = (sourcePod s).containers ∧
    (probePod s).labels.lookup CatalogSourceLabelKey = some "" ∧
    (sourceService s).selector = sourceSelector s ∧
    selectorMatches (sourceSelector s) (probePod s).labels = false := by
  refine ⟨rfl, rfl, rfl, ?_⟩
  have hx : (probePod s).labels = [(CatalogSourceLabelKey, "")] := rfl
  have hbeq : ("" == s.name) = false := by
    rw [beq_eq_false_iff_ne]
    exact fun he => h he.symm
  rw [hx]
  simp [selectorMatches, sourceSelector, List.lookup, hbeq]

/-- Witness for C9 at a concrete input. -/
theorem probePod_never_selected_w :
    selectorMatches (sourceSelector csSteady) (probePod csSteady).labels = false ∧
    (probePod csSteady).containers = (sourcePod csSteady).containers :=
  ⟨(probePod_never_selected csSteady (by decide)).2.2.2,
    (probePod_never_selected csSteady (by decide)).1⟩

theorem updateRegistryPodByDigest_none_result (s : CatalogSource) (now : Nat) :
    (updateRegistryPodByDigest s now none).result = some false := by
  unfold updateRegistryPodByDigest
  by_cases h0 : s.pollInterval = 0
  · simp [h0]
  · rw [if_neg h0]
    simp only [ite_self]

/-- Claim C10: the possibly-failing element accesses are the first container of each cached
pod matching the canonical label and the first container status of the
freshly constructed desired pod, which carries none; under the precondition
that every accessed pod has the accessed element — every cached matching pod
has a container, and no digest reaches the comparison branch — the panic
branch is unreachable and both `EnsureRegistryServer` and
`CheckRegistryServer` return a value. -/
theorem Ensure_Check_total (c : GrpcRegistryReconciler) (cs : CatalogSource)
    (hcont : ∀ pods, c.lister.listPods cs.ns (sourceLabels cs) = .ok pods →
      ∀ p ∈ pods, p.containers ≠ [])
    (hrace : c.raceDelivered = none) :
    (sourcePod cs).status.containerStatuses = [] ∧
    (EnsureRegistryServer c cs).isSome = true ∧
    (CheckRegistryServer c cs).isSome = true := by
  have hcpw : ∃ l, currentPodsWithCorrectImage c cs = some l := by
    unfold currentPodsWithCorrectImage
    cases hls : c.lister.listPods cs.ns (sourceLabels cs) with
    | error e => exact ⟨[], rfl⟩
    | ok pods =>
      obtain ⟨l, hl, _⟩ := filterCorrectImage_some cs.image pods (hcont pods hls)
      exact ⟨l, hl⟩
  obtain ⟨l, hl⟩ := hcpw
  have hupd : (updateRegistryPodByDigest cs c.now c.raceDelivered).result = some false := by
    rw [hrace]
    exact updateRegistryPodByDigest_none_result cs c.now
  refine ⟨rfl, ?_, ?_⟩
  · unfold EnsureRegistryServer
    cases hov : cs.status.isNone with
    | true =>
      simp only [hov, if_true]
      cases hp : (ensurePod c cs true).1 with
      | error e => simp [hp]
      | ok v =>
        cases hs : (ensureService c cs true).1 with
        | error e => simp [hp, hs]
        | ok v2 => simp [hp, hs]
    | false =>
      simp only [hov, Bool.false_eq_true, if_false, hl, hupd]
      by_cases hle : l.length = 0
      · simp only [hle, if_true]
        cases hp : (ensurePod c cs true).1 with
        | error e => simp [hp]
        | ok v =>
          cases hs : (ensureService c cs false).1 with
          | error e => simp [hp, hs]
          | ok v2 => simp [hp, hs]
      · simp only [hle, if_false]
        cases hp : (ensurePod c cs false).1 with
        | error e => simp [hp]
        | ok v =>
          cases hs : (ensureService c cs false).1 with
          | error e => simp [hp, hs]
          | ok v2 => simp [hp, hs]
  · unfold CheckRegistryServer
    rw [hl]
    dsimp only
    split <;> rfl

/-- Witness for C10 at a concrete input. -/
theorem Ensure_Check_total_w :
    (EnsureRegistryServer cSteady csSteady).isSome = true ∧
    (CheckRegistryServer cSteady csSteady).isSome = true := by
  have h := Ensure_Check_total cSteady csSteady
    (by
      intro pods hls p hp
      injection hls with h2
      subst h2
      simp only [List.mem_singleton] at hp
      subst hp
      simp [podGood])
    rfl
  exact ⟨h.2.1, h.2.2⟩

end Reconciler
